import Mathlib

/-!
Shallow embedding of the rating subsystem of the back-dundermifflin catalog
service, together with proofs about its behaviour.

The embedded code:
* `src/unnamed/part_008` — the Mongoose rating schema: score bounds 1..5 and the
  unique compound index on (book, user);
* `src/repositories/rating.repository.js` (`src/unnamed/part_005`) —
  `findByBookAndUser`, `createRating`;
* `src/repositories/book.repository.js` — `findBookById`,
  `updateBookRatingMetrics` (a Mongoose `document.save()`);
* `src/services/rating.service.js` — `handleBookRating`;
* `src/unnamed/part_002` — the Express controller `rateBook`, including the
  JavaScript `parseInt(newRating, 10)` score parsing and the catch clause that
  maps service error messages onto HTTP statuses.

Modelling conventions: Mongo `Number` fields are embedded as `ℚ` (the exact
arithmetic reading of IEEE doubles), object ids as `Nat`, collections as lists
of documents, and each `await`ed storage round-trip of the service as one
atomic transition of a small-step thread semantics (`stepThread`/`step`/`run`)
used for the concurrency claims.
-/

namespace DunderMifflin

/-- One persisted rating document, after `ratingSchema` in `src/unnamed/part_008`:
a score (Mongo `Number`, modelled as `ℚ`), a book reference and a user reference. -/
structure RatingEvent where
  book : Nat
  user : Nat
  rating : ℚ
deriving DecidableEq, Repr

/-- One persisted book document, after `bookSchema` in `src/model/book.model.js`
(the variant with rating fields, lines 4-67): catalog attributes plus
`averageRating` (default 0) and `totalRatingsCount` (default 0).
`id` stands for the Mongo `_id`. -/
structure Book where
  id : Nat
  titulo : String
  portada : String
  sinopsis : String
  autor : String
  categorias : List String
  link : String
  fileType : String
  creator : Nat
  averageRating : ℚ
  totalRatingsCount : Nat
deriving DecidableEq, Repr

/-- The two Mongo collections the rating flow touches. -/
structure StoreState where
  ratings : List RatingEvent
  books : List Book
deriving DecidableEq, Repr

/-- The distinguishable failures of the rating flow.  `duplicateRating` and
`bookNotFound` are the two `throw new Error(...)` sites of
`src/services/rating.service.js`; `validationFailed` is the Mongoose schema
validation rejection (score outside `min: 1`/`max: 5`); `storageDuplicateKey`
is the MongoServerError E11000 raised by the unique index of
`src/unnamed/part_008` line 33 when an insert loses the uniqueness race. -/
inductive RatingError where
  | duplicateRating
  | bookNotFound
  | validationFailed
  | storageDuplicateKey
deriving DecidableEq, Repr

/-- Predicate selecting the rating documents of one (book, user) pair —
the query object `{ book: bookId, user: userId }`. -/
def matchesPair (bookId userId : Nat) (r : RatingEvent) : Bool :=
  r.book == bookId && r.user == userId

/-- Number of persisted rating documents for one (book, user) pair. -/
def pairCount (ratings : List RatingEvent) (bookId userId : Nat) : Nat :=
  ratings.countP (matchesPair bookId userId)

/-- `findByBookAndUser` of `src/unnamed/part_005` lines 9-11:
`Rating.findOne({ book: bookId, user: userId })`. -/
def findByBookAndUser (ratings : List RatingEvent) (bookId userId : Nat) :
    Option RatingEvent :=
  ratings.find? (matchesPair bookId userId)

/-- `createRating` of `src/unnamed/part_005` lines 17-19, i.e.
`Rating.create(ratingData)` under the schema of `src/unnamed/part_008`:
schema validation rejects a score outside [1, 5], and the unique compound
index on (book, user) rejects an insert for a pair that already has a
document; otherwise the document is appended. -/
def createRating (ratings : List RatingEvent) (e : RatingEvent) :
    Except RatingError (List RatingEvent) :=
  if e.rating < 1 ∨ 5 < e.rating then
    .error .validationFailed
  else if (findByBookAndUser ratings e.book e.user).isSome then
    .error .storageDuplicateKey
  else
    .ok (ratings ++ [e])

/-- `findBookById` of `src/repositories/book.repository.js` lines 121-123:
`Book.findById(bookId)`. -/
def findBookById (books : List Book) (bookId : Nat) : Option Book :=
  books.find? (fun b => b.id == bookId)

/-- Effect of `book.save()` on the books collection: the stored document with
the same `_id` is replaced by the in-memory document. -/
def saveBook (books : List Book) (b : Book) : List Book :=
  books.map (fun x => if x.id == b.id then b else x)

/-- `updateBookRatingMetrics` of `src/repositories/book.repository.js`
lines 130-132: `await book.save()`. -/
def updateBookRatingMetrics (books : List Book) (book : Book) : List Book :=
  saveBook books book

/-- The book document the service builds before saving, lines 31-38 of
`src/services/rating.service.js`: only `averageRating` and
`totalRatingsCount` are modified. -/
def ratedBook (book : Book) (newRating : ℚ) : Book :=
  { book with
    averageRating :=
      (book.averageRating * (book.totalRatingsCount : ℚ) + newRating) /
        ((book.totalRatingsCount : ℚ) + 1),
    totalRatingsCount := book.totalRatingsCount + 1 }

/-- Outcome of one `handleBookRating` call: the store it leaves behind and
either the updated book or the error thrown. -/
structure RunResult where
  state : StoreState
  result : Except RatingError Book
deriving Repr

/-- `handleBookRating` of `src/services/rating.service.js` lines 10-43:
duplicate check, event insert, book load, incremental-mean computation,
save.  Errors propagate; a failing step leaves the store as it was at that
point (in particular the event inserted at step 2 is not rolled back when
the book lookup of step 3 fails). -/
def handleBookRating (st : StoreState) (bookId userId : Nat) (newRating : ℚ) :
    RunResult :=
  match findByBookAndUser st.ratings bookId userId with
  | some _ => ⟨st, .error .duplicateRating⟩
  | none =>
    match createRating st.ratings ⟨bookId, userId, newRating⟩ with
    | .error e => ⟨st, .error e⟩
    | .ok ratings1 =>
      match findBookById st.books bookId with
      | none => ⟨⟨ratings1, st.books⟩, .error .bookNotFound⟩
      | some book =>
        let updated := ratedBook book newRating
        ⟨⟨ratings1, updateBookRatingMetrics st.books updated⟩, .ok updated⟩

/-- Character class the JavaScript `parseInt` skips at the start of its input
(the StrWhiteSpaceChar production, restricted to the common characters). -/
def isJsWhitespace (c : Char) : Bool :=
  c == ' ' || c == '\t' || c == '\n' || c == '\r'

/-- Numeric value of the leading run of decimal digits, or `none` when the
run is empty (the NaN case of `parseInt`). -/
def leadingDigitsVal (cs : List Char) : Option Nat :=
  let ds := cs.takeWhile Char.isDigit
  if ds.isEmpty then none
  else some (ds.foldl (fun acc c => acc * 10 + (c.toNat - 48)) 0)

/-- The JavaScript `parseInt(s, 10)` used at line 16 of `src/unnamed/part_002`:
skip leading whitespace, read an optional sign, then the longest run of
decimal digits; `none` models NaN. -/
def parseIntDecimal (s : String) : Option Int :=
  match s.data.dropWhile isJsWhitespace with
  | '-' :: rest => (leadingDigitsVal rest).map (fun n => -(n : Int))
  | '+' :: rest => (leadingDigitsVal rest).map (fun n => (n : Int))
  | cs => (leadingDigitsVal cs).map (fun n => (n : Int))

/-- The HTTP responses the controller of `src/unnamed/part_002` can produce:
200 with the updated book, 400 for an invalid score, 409 for the two
recognised service messages, 500 otherwise. -/
inductive HttpResponse where
  | ok (book : Book)
  | badRequest (message : String)
  | conflict (message : String)
  | internalError (message : String)
deriving DecidableEq, Repr

/-- The `error.message` strings of the errors reaching the controller catch
clause.  The two Spanish messages are the literal `throw new Error(...)`
strings of `src/services/rating.service.js`; the other two stand for the
Mongoose validation message and the MongoServerError E11000 message, which
differ from both Spanish strings. -/
def errMessage : RatingError → String
  | .duplicateRating => "Ya has calificado este libro."
  | .bookNotFound => "Libro no encontrado."
  | .validationFailed => "Rating validation failed"
  | .storageDuplicateKey => "E11000 duplicate key error"

/-- The catch clause of `rateBook`, lines 28-33 of `src/unnamed/part_002`:
409 when the message equals one of the two recognised strings, 500 otherwise. -/
def translateServiceError (e : RatingError) : HttpResponse :=
  if errMessage e = "Ya has calificado este libro." ∨
      errMessage e = "Libro no encontrado." then
    .conflict (errMessage e)
  else
    .internalError (errMessage e)

/-- The 400 message of line 18 of `src/unnamed/part_002`. -/
def invalidScoreMessage : String :=
  "La calificación debe ser un número entre 1 y 5."

/-- `rateBook` of `src/unnamed/part_002` lines 9-34: parse the score with
`parseInt(newRating, 10)`, reject NaN and out-of-range values with 400
before any storage access, otherwise run the service and translate its
outcome. -/
def rateBook (st : StoreState) (bookId userId : Nat) (newRating : String) :
    StoreState × HttpResponse :=
  match parseIntDecimal newRating with
  | none => (st, .badRequest invalidScoreMessage)
  | some rating =>
    if rating < 1 ∨ 5 < rating then
      (st, .badRequest invalidScoreMessage)
    else
      let r := handleBookRating st bookId userId (rating : ℚ)
      match r.result with
      | .ok b => (r.state, .ok b)
      | .error e => (r.state, translateServiceError e)

/-! ### Small-step concurrency model

Each concurrent `handleBookRating` call is one thread.  The service suspends
at four `await`s — the duplicate check, the event insert, the book load and
the book save — so each of those round-trips is one atomic transition; the
in-between computation is synchronous JavaScript and happens inside the
transition that ends at the corresponding `await`. -/

/-- Program counter of one in-flight `handleBookRating` call.  `loaded`
carries the in-memory book document the service is about to `save()`. -/
inductive TPC where
  | start
  | checked
  | inserted
  | loaded (updated : Book)
  | doneOk
  | doneErr (e : RatingError)
deriving DecidableEq, Repr

/-- One in-flight `handleBookRating` call: its arguments and program counter. -/
structure Thread where
  bookId : Nat
  userId : Nat
  score : ℚ
  pc : TPC
deriving DecidableEq, Repr

/-- Shared store plus the in-flight calls. -/
structure Config where
  store : StoreState
  threads : List Thread
deriving DecidableEq, Repr

/-- One atomic transition of a single thread against the shared store,
following `handleBookRating` await by await. -/
def stepThread (store : StoreState) (t : Thread) : StoreState × Thread :=
  match t.pc with
  | .start =>
    if (findByBookAndUser store.ratings t.bookId t.userId).isSome then
      (store, { t with pc := .doneErr .duplicateRating })
    else
      (store, { t with pc := .checked })
  | .checked =>
    match createRating store.ratings ⟨t.bookId, t.userId, t.score⟩ with
    | .error e => (store, { t with pc := .doneErr e })
    | .ok rs => (⟨rs, store.books⟩, { t with pc := .inserted })
  | .inserted =>
    match findBookById store.books t.bookId with
    | none => (store, { t with pc := .doneErr .bookNotFound })
    | some book => (store, { t with pc := .loaded (ratedBook book t.score) })
  | .loaded updated =>
    (⟨store.ratings, saveBook store.books updated⟩, { t with pc := .doneOk })
  | .doneOk => (store, t)
  | .doneErr _ => (store, t)

/-- Scheduler transition: thread `i` (if it exists) takes one atomic step. -/
def step (cfg : Config) (i : Nat) : Config :=
  match cfg.threads[i]? with
  | none => cfg
  | some t =>
    let r := stepThread cfg.store t
    ⟨r.1, cfg.threads.set i r.2⟩

/-- Run a whole schedule, one thread index per transition. -/
def run (cfg : Config) (sched : List Nat) : Config :=
  sched.foldl step cfg

/-- A thread that has reached a terminal state. -/
def isDoneB : TPC → Bool
  | .doneOk => true
  | .doneErr _ => true
  | _ => false

/-- A thread that is past its successful event insert. -/
def afterInsert : TPC → Bool
  | .inserted => true
  | .loaded _ => true
  | .doneOk => true
  | _ => false

/-- Contribution of one thread to the ledger count of its own pair. -/
def pcContrib (p : TPC) : Nat :=
  if afterInsert p then 1 else 0

/-- Configuration with two in-flight submissions on the same book. -/
def twoThreadCfg (bookId u0 u1 : Nat) (s0 s1 : ℚ) (store : StoreState)
    (p0 p1 : TPC) : Config :=
  ⟨store, [⟨bookId, u0, s0, p0⟩, ⟨bookId, u1, s1, p1⟩]⟩

/-- Discriminator for a 200 response. -/
def isOkResponse : HttpResponse → Bool
  | .ok _ => true
  | _ => false

/-- Discriminator for a 400 response. -/
def isBadRequestResponse : HttpResponse → Bool
  | .badRequest _ => true
  | _ => false

/-! ### Concrete example documents -/

/-- A concrete book with zero-initialised rating fields. -/
def bookEx : Book :=
  { id := 1, titulo := "t", portada := "p", sinopsis := "s", autor := "a",
    categorias := [], link := "l", fileType := "pdf", creator := 2,
    averageRating := 0, totalRatingsCount := 0 }

/-- A concrete store: no ratings yet, one book. -/
def stEx : StoreState := ⟨[], [bookEx]⟩

/-! ### Helper lemmas about the store operations -/

lemma matchesPair_mk (b u : Nat) (s : ℚ) :
    matchesPair b u ⟨b, u, s⟩ = true := by
  simp [matchesPair]

lemma matchesPair_user_ne {e : RatingEvent} {b u : Nat} (h : e.user ≠ u) :
    matchesPair b u e = false := by
  simp [matchesPair, h]

lemma pairCount_append (l : List RatingEvent) (e : RatingEvent) (b u : Nat) :
    pairCount (l ++ [e]) b u =
      pairCount l b u + (if matchesPair b u e then 1 else 0) := by
  simp [pairCount, List.countP_append, List.countP_singleton]

lemma pairCount_append_self (l : List RatingEvent) (b u : Nat) (s : ℚ) :
    pairCount (l ++ [⟨b, u, s⟩]) b u = pairCount l b u + 1 := by
  simp [pairCount_append, matchesPair_mk]

lemma pairCount_append_user_ne (l : List RatingEvent) {e : RatingEvent}
    (b u : Nat) (h : e.user ≠ u) : pairCount (l ++ [e]) b u = pairCount l b u := by
  simp [pairCount_append, matchesPair_user_ne h]

lemma findByBookAndUser_isSome_iff (l : List RatingEvent) (b u : Nat) :
    (findByBookAndUser l b u).isSome = true ↔ 0 < pairCount l b u := by
  simp [findByBookAndUser, pairCount, List.find?_isSome, List.countP_pos_iff]

lemma findByBookAndUser_eq_none_iff (l : List RatingEvent) (b u : Nat) :
    findByBookAndUser l b u = none ↔ pairCount l b u = 0 := by
  simp [findByBookAndUser, pairCount, List.find?_eq_none, List.countP_eq_zero]

lemma findBookById_id {books : List Book} {bid : Nat} {bk : Book}
    (h : findBookById books bid = some bk) : bk.id = bid := by
  have := List.find?_some h
  simpa using this

lemma saveBook_map_id (books : List Book) (u : Book) :
    (saveBook books u).map Book.id = books.map Book.id := by
  induction books with
  | nil => rfl
  | cons x xs ih =>
    simp only [saveBook, List.map_cons] at ih ⊢
    refine congrArg₂ _ ?_ ih
    by_cases h : x.id = u.id
    · simp [h]
    · simp [h]

lemma findBookById_isSome_iff (books : List Book) (bid : Nat) :
    (findBookById books bid).isSome = true ↔ bid ∈ books.map Book.id := by
  simp [findBookById, List.find?_isSome, List.mem_map]

lemma findBookById_saveBook_of_found {books : List Book} {bid : Nat} {bk u : Book}
    (h : findBookById books bid = some bk) (hu : u.id = bk.id) :
    findBookById (saveBook books u) bid = some u := by
  induction books with
  | nil => simp [findBookById] at h
  | cons x xs ih =>
    by_cases hx : x.id = bid
    · have hbk : bk = x := by
        rw [show findBookById (x :: xs) bid = some x from by
          simp [findBookById, hx]] at h
        exact (Option.some_inj.mp h).symm
      have hxu : x.id = u.id := by rw [hu, hbk]
      have hub : u.id = bid := by rw [hu, hbk]; exact hx
      have hsave : saveBook (x :: xs) u = u :: saveBook xs u := by
        simp [saveBook, hxu]
      rw [hsave]
      exact List.find?_cons_of_pos _ (by simp [hub])
    · have h2 : findBookById xs bid = some bk := by
        simpa [findBookById, hx] using h
      have hxu : ¬x.id = u.id := by
        rw [hu, findBookById_id h2]; exact hx
      have hsave : saveBook (x :: xs) u = x :: saveBook xs u := by
        simp [saveBook, hxu]
      rw [hsave]
      show List.find? (fun b => b.id == bid) (x :: saveBook xs u) = some u
      rw [List.find?_cons_of_neg _ (by simp [hx])]
      exact ih h2

lemma eq_of_findBookById_of_nodup {books : List Book} {bid : Nat} {bk x : Book}
    (hids : (books.map Book.id).Nodup) (hfind : findBookById books bid = some bk)
    (hx : x ∈ books) (hxid : x.id = bid) : x = bk := by
  induction books with
  | nil => simp at hx
  | cons y ys ih =>
    rcases List.mem_cons.mp hx with rfl | hmem
    · simp only [findBookById, List.find?_cons_of_pos, beq_iff_eq, hxid] at hfind
      exact Option.some_inj.mp hfind
    · have hyne : y.id ≠ bid := by
        intro hy
        have : y.id ∈ ys.map Book.id := by
          rw [hy, ← hxid]; exact List.mem_map_of_mem Book.id hmem
        exact (List.nodup_cons.mp (by simpa using hids)).1 this
      have h2 : findBookById ys bid = some bk := by
        simpa [findBookById, hyne] using hfind
      exact ih (List.nodup_cons.mp (by simpa using hids)).2 h2 hmem

/-! ### Characterisation of one `handleBookRating` call -/

lemma handleBookRating_success_eq {st : StoreState} {bookId userId : Nat}
    {s : ℚ} {book : Book}
    (hnew : findByBookAndUser st.ratings bookId userId = none)
    (h1 : 1 ≤ s) (h5 : s ≤ 5)
    (hbook : findBookById st.books bookId = some book) :
    handleBookRating st bookId userId s =
      ⟨⟨st.ratings ++ [⟨bookId, userId, s⟩], saveBook st.books (ratedBook book s)⟩,
        .ok (ratedBook book s)⟩ := by
  have hval : ¬(s < 1 ∨ 5 < s) := by
    push_neg
    exact ⟨h1, h5⟩
  simp [handleBookRating, hnew, createRating, hval, hbook, updateBookRatingMetrics]

/-- A store in which user 7 has already rated book 1. -/
def stDupEx : StoreState := ⟨[⟨1, 7, 4⟩], [bookEx]⟩

/-- A store with no books at all. -/
def stEmptyEx : StoreState := ⟨[], []⟩

/-- C2: for every successful submission of score `s` on an item currently
holding `(averageRating a, totalRatingsCount c)`, the operation persists
exactly `newCount = c + 1` and `newAverage = (a * c + s) / (c + 1)` onto the
item, computed from the loaded values. -/
theorem handleBookRating_incremental_mean (st : StoreState) (bookId userId : Nat)
    (s : ℚ) (book : Book)
    (hnew : findByBookAndUser st.ratings bookId userId = none)
    (h1 : 1 ≤ s) (h5 : s ≤ 5)
    (hbook : findBookById st.books bookId = some book) :
    ∃ updated : Book,
      (handleBookRating st bookId userId s).result = .ok updated ∧
      updated.totalRatingsCount = book.totalRatingsCount + 1 ∧
      updated.averageRating =
        (book.averageRating * (book.totalRatingsCount : ℚ) + s) /
          ((book.totalRatingsCount : ℚ) + 1) ∧
      findBookById (handleBookRating st bookId userId s).state.books bookId =
        some updated := by
  refine ⟨ratedBook book s, ?_, rfl, rfl, ?_⟩
  · rw [handleBookRating_success_eq hnew h1 h5 hbook]
  · rw [handleBookRating_success_eq hnew h1 h5 hbook]
    exact findBookById_saveBook_of_found hbook rfl

/-- Witness for C2 at a concrete input: rating 4 on the fresh example book. -/
theorem handleBookRating_incremental_mean_witness :
    ∃ updated : Book,
      (handleBookRating stEx 1 7 4).result = .ok updated ∧
      updated.totalRatingsCount = bookEx.totalRatingsCount + 1 ∧
      updated.averageRating =
        (bookEx.averageRating * (bookEx.totalRatingsCount : ℚ) + 4) /
          ((bookEx.totalRatingsCount : ℚ) + 1) ∧
      findBookById (handleBookRating stEx 1 7 4).state.books 1 = some updated :=
  handleBookRating_incremental_mean stEx 1 7 4 bookEx rfl (by norm_num)
    (by norm_num) rfl

/-- C4: a submission for a pair that already has a rating fails with the
duplicate-rating error and leaves the store completely unchanged. -/
theorem handleBookRating_duplicate_rejected (st : StoreState)
    (bookId userId : Nat) (s : ℚ)
    (hdup : (findByBookAndUser st.ratings bookId userId).isSome = true) :
    (handleBookRating st bookId userId s).result = .error .duplicateRating ∧
    (handleBookRating st bookId userId s).state = st := by
  obtain ⟨e, he⟩ := Option.isSome_iff_exists.mp hdup
  simp [handleBookRating, he]

/-- Witness for C4: user 7 re-rates book 1 with score 5. -/
theorem handleBookRating_duplicate_rejected_witness :
    (handleBookRating stDupEx 1 7 5).result = .error .duplicateRating ∧
    (handleBookRating stDupEx 1 7 5).state = stDupEx :=
  handleBookRating_duplicate_rejected stDupEx 1 7 5 rfl

/-- C5: when the pair is new but the book id resolves to no book, the call
fails with the book-not-found error while the rating event inserted before
the lookup stays persisted, and the books collection is untouched. -/
theorem handleBookRating_bookNotFound_dangling (st : StoreState)
    (bookId userId : Nat) (s : ℚ)
    (hnew : findByBookAndUser st.ratings bookId userId = none)
    (h1 : 1 ≤ s) (h5 : s ≤ 5)
    (hnb : findBookById st.books bookId = none) :
    (handleBookRating st bookId userId s).result = .error .bookNotFound ∧
    (handleBookRating st bookId userId s).state.ratings =
      st.ratings ++ [⟨bookId, userId, s⟩] ∧
    (handleBookRating st bookId userId s).state.books = st.books := by
  have hval : ¬(s < 1 ∨ 5 < s) := by push_neg; exact ⟨h1, h5⟩
  simp [handleBookRating, hnew, createRating, hval, hnb]

/-- Witness for C5: rating a nonexistent book in the empty store. -/
theorem handleBookRating_bookNotFound_dangling_witness :
    (handleBookRating stEmptyEx 1 7 4).result = .error .bookNotFound ∧
    (handleBookRating stEmptyEx 1 7 4).state.ratings =
      stEmptyEx.ratings ++ [⟨1, 7, 4⟩] ∧
    (handleBookRating stEmptyEx 1 7 4).state.books = stEmptyEx.books :=
  handleBookRating_bookNotFound_dangling stEmptyEx 1 7 4 rfl (by norm_num)
    (by norm_num) rfl

/-- C9: a successful `handleBookRating` call appends exactly one rating event
to the ledger and rewrites the books collection pointwise: the book with the
rated id is replaced by its `ratedBook` update and every other book is left
as it was; `ratedBook` itself changes only the two rating fields, every
catalog field is preserved. -/
theorem handleBookRating_frame (st : StoreState) (bookId userId : Nat) (s : ℚ)
    (book : Book)
    (hnew : findByBookAndUser st.ratings bookId userId = none)
    (h1 : 1 ≤ s) (h5 : s ≤ 5)
    (hbook : findBookById st.books bookId = some book)
    (hids : (st.books.map Book.id).Nodup) :
    (handleBookRating st bookId userId s).state.ratings =
      st.ratings ++ [⟨bookId, userId, s⟩] ∧
    (handleBookRating st bookId userId s).state.books =
      st.books.map (fun x => if x.id = bookId then ratedBook x s else x) ∧
    ∀ x : Book,
      (ratedBook x s).id = x.id ∧ (ratedBook x s).titulo = x.titulo ∧
      (ratedBook x s).portada = x.portada ∧ (ratedBook x s).sinopsis = x.sinopsis ∧
      (ratedBook x s).autor = x.autor ∧ (ratedBook x s).categorias = x.categorias ∧
      (ratedBook x s).link = x.link ∧ (ratedBook x s).fileType = x.fileType ∧
      (ratedBook x s).creator = x.creator := by
  refine ⟨?_, ?_, fun x => ⟨rfl, rfl, rfl, rfl, rfl, rfl, rfl, rfl, rfl⟩⟩
  · rw [handleBookRating_success_eq hnew h1 h5 hbook]
  · rw [handleBookRating_success_eq hnew h1 h5 hbook]
    have hid : book.id = bookId := findBookById_id hbook
    apply List.map_congr_left
    intro x hx
    by_cases hxb : x.id = bookId
    · have hxbook : x = book := eq_of_findBookById_of_nodup hids hbook hx hxb
      subst hxbook
      simp [ratedBook, hxb]
    · have hc : (x.id == (ratedBook book s).id) = false := by
        show (x.id == book.id) = false
        simp [hid, hxb]
      simp only [hc, if_pos, if_neg hxb, Bool.false_eq_true, if_false]

/-- Witness for C9 at a concrete input: rating 4 on the fresh example book. -/
theorem handleBookRating_frame_witness :
    (handleBookRating stEx 1 7 4).state.ratings =
      stEx.ratings ++ [⟨1, 7, 4⟩] ∧
    (handleBookRating stEx 1 7 4).state.books =
      stEx.books.map (fun x => if x.id = 1 then ratedBook x 4 else x) ∧
    ∀ x : Book,
      (ratedBook x 4).id = x.id ∧ (ratedBook x 4).titulo = x.titulo ∧
      (ratedBook x 4).portada = x.portada ∧ (ratedBook x 4).sinopsis = x.sinopsis ∧
      (ratedBook x 4).autor = x.autor ∧ (ratedBook x 4).categorias = x.categorias ∧
      (ratedBook x 4).link = x.link ∧ (ratedBook x 4).fileType = x.fileType ∧
      (ratedBook x 4).creator = x.creator :=
  handleBookRating_frame stEx 1 7 4 bookEx rfl (by norm_num) (by norm_num) rfl
    (by simp [stEx, bookEx])

lemma rateBook_success_eq {st : StoreState} {bookId userId : Nat} {book : Book}
    {snew : String} {r : Int}
    (hnew : findByBookAndUser st.ratings bookId userId = none)
    (hbook : findBookById st.books bookId = some book)
    (hp : parseIntDecimal snew = some r) (h1 : 1 ≤ r) (h5 : r ≤ 5) :
    rateBook st bookId userId snew =
      (⟨st.ratings ++ [⟨bookId, userId, (r : ℚ)⟩],
          saveBook st.books (ratedBook book (r : ℚ))⟩,
        .ok (ratedBook book (r : ℚ))) := by
  have hnot : ¬(r < 1 ∨ 5 < r) := not_or.mpr ⟨not_lt.mpr h1, not_lt.mpr h5⟩
  have hsucc := handleBookRating_success_eq (s := (r : ℚ)) hnew
    (by exact_mod_cast h1) (by exact_mod_cast h5) hbook
  simp only [rateBook, hp, if_neg hnot, hsucc]

lemma rateBook_badRequest_of_out_of_range {st : StoreState}
    {bookId userId : Nat} {snew : String} {r : Int}
    (hp : parseIntDecimal snew = some r) (hrange : r < 1 ∨ 5 < r) :
    rateBook st bookId userId snew = (st, .badRequest invalidScoreMessage) := by
  simp only [rateBook, hp, if_pos hrange]

/-- C10: with a fresh pair and an existing book, a submission is accepted
exactly when `parseInt(newRating, 10)` yields an integer in [1, 5], and the
persisted score is that truncated integer. -/
theorem rateBook_parseInt_acceptance (st : StoreState) (bookId userId : Nat)
    (book : Book) (snew : String)
    (hnew : findByBookAndUser st.ratings bookId userId = none)
    (hbook : findBookById st.books bookId = some book) :
    (isOkResponse (rateBook st bookId userId snew).2 = true ↔
      ∃ r : Int, parseIntDecimal snew = some r ∧ 1 ≤ r ∧ r ≤ 5) ∧
    ∀ r : Int, parseIntDecimal snew = some r → 1 ≤ r → r ≤ 5 →
      (rateBook st bookId userId snew).1.ratings =
        st.ratings ++ [⟨bookId, userId, (r : ℚ)⟩] := by
  cases hp : parseIntDecimal snew with
  | none => simp [rateBook, hp, isOkResponse]
  | some r =>
    by_cases hrange : r < 1 ∨ 5 < r
    · rw [rateBook_badRequest_of_out_of_range hp hrange]
      constructor
      · simp only [isOkResponse, Bool.false_eq_true, false_iff]
        rintro ⟨r2, hr2, h12, h52⟩
        rw [Option.some_inj.mp hr2] at hrange
        rcases hrange with h | h
        · exact absurd h12 (not_le.mpr h)
        · exact absurd h52 (not_le.mpr h)
      · intro r2 hr2 h12 h52
        rw [Option.some_inj.mp hr2] at hrange
        rcases hrange with h | h
        · exact absurd h12 (not_le.mpr h)
        · exact absurd h52 (not_le.mpr h)
    · push_neg at hrange
      rw [rateBook_success_eq hnew hbook hp hrange.1 hrange.2]
      constructor
      · simp only [isOkResponse, true_iff]
        exact ⟨r, rfl, hrange.1, hrange.2⟩
      · intro r2 hr2 _ _
        have hr : r = r2 := Option.some_inj.mp hr2
        subst hr
        rfl

/-- Witness for C10: the string "4abc" parses to 4 and is accepted with
stored score 4 on the fresh example store. -/
theorem rateBook_parseInt_acceptance_witness :
    (isOkResponse (rateBook stEx 1 7 "4abc").2 = true ↔
      ∃ r : Int, parseIntDecimal "4abc" = some r ∧ 1 ≤ r ∧ r ≤ 5) ∧
    ∀ r : Int, parseIntDecimal "4abc" = some r → 1 ≤ r → r ≤ 5 →
      (rateBook stEx 1 7 "4abc").1.ratings =
        stEx.ratings ++ [⟨1, 7, (r : ℚ)⟩] :=
  rateBook_parseInt_acceptance stEx 1 7 bookEx "4abc" rfl rfl

/-- C6 counterexample: the submission with score "1.5" is not rejected — it is
accepted with a 200 response and mutates storage, persisting score 1. -/
theorem score_one_point_five_accepted :
    isOkResponse (rateBook stEx 1 7 "1.5").2 = true ∧
    isBadRequestResponse (rateBook stEx 1 7 "1.5").2 = false ∧
    (rateBook stEx 1 7 "1.5").1.ratings = [⟨1, 7, 1⟩] := by
  refine ⟨by decide, by decide, by decide⟩

/-- C6 amended: submissions with score "0", "6" or a non-numeric string are
rejected with the invalid-score message before touching storage and cause
no mutation; the submission "1.5" however is parsed by `parseInt` to 1 and
accepted, persisting score 1. -/
theorem score_bound_enforcement_amended :
    (∀ st : StoreState, ∀ bookId userId : Nat,
      rateBook st bookId userId "0" = (st, .badRequest invalidScoreMessage)) ∧
    (∀ st : StoreState, ∀ bookId userId : Nat,
      rateBook st bookId userId "6" = (st, .badRequest invalidScoreMessage)) ∧
    (∀ st : StoreState, ∀ bookId userId : Nat, ∀ snew : String,
      parseIntDecimal snew = none →
      rateBook st bookId userId snew = (st, .badRequest invalidScoreMessage)) ∧
    (∀ st : StoreState, ∀ bookId userId : Nat, ∀ book : Book,
      findByBookAndUser st.ratings bookId userId = none →
      findBookById st.books bookId = some book →
      isOkResponse (rateBook st bookId userId "1.5").2 = true ∧
      (rateBook st bookId userId "1.5").1.ratings =
        st.ratings ++ [⟨bookId, userId, 1⟩]) := by
  refine ⟨fun st bookId userId => rfl, fun st bookId userId => rfl,
    fun st bookId userId snew hp => by simp [rateBook, hp], ?_⟩
  intro st bookId userId book hnew hbook
  have hp : parseIntDecimal "1.5" = some 1 := rfl
  rw [rateBook_success_eq hnew hbook hp (by norm_num) (by norm_num)]
  exact ⟨rfl, by norm_num⟩

/-- Witness for the amended C6 at concrete inputs. -/
theorem score_bound_enforcement_amended_witness :
    rateBook stEx 1 7 "0" = (stEx, .badRequest invalidScoreMessage) ∧
    rateBook stEx 1 7 "6" = (stEx, .badRequest invalidScoreMessage) ∧
    rateBook stEx 1 7 "abc" = (stEx, .badRequest invalidScoreMessage) ∧
    (isOkResponse (rateBook stEx 1 7 "1.5").2 = true ∧
      (rateBook stEx 1 7 "1.5").1.ratings = stEx.ratings ++ [⟨1, 7, 1⟩]) :=
  ⟨score_bound_enforcement_amended.1 stEx 1 7,
    score_bound_enforcement_amended.2.1 stEx 1 7,
    score_bound_enforcement_amended.2.2.1 stEx 1 7 "abc" rfl,
    score_bound_enforcement_amended.2.2.2 stEx 1 7 bookEx rfl rfl⟩

/-! ### Sequences of accepted submissions (claim C1) -/

/-- Fold a list of (raterId, score) submissions on one book through the
service, keeping the store each call leaves behind. -/
def runSubmissions (st : StoreState) (bookId : Nat) (subs : List (Nat × ℚ)) :
    StoreState :=
  subs.foldl (fun s p => (handleBookRating s bookId p.1 p.2).state) st

lemma runSubmissions_invariant (bookId : Nat) :
    ∀ (subs : List (Nat × ℚ)) (st : StoreState) (book : Book),
    findBookById st.books bookId = some book →
    (∀ p ∈ subs, findByBookAndUser st.ratings bookId p.1 = none) →
    (subs.map Prod.fst).Nodup →
    (∀ p ∈ subs, 1 ≤ p.2 ∧ p.2 ≤ 5) →
    ∃ book2 : Book,
      findBookById (runSubmissions st bookId subs).books bookId = some book2 ∧
      book2.totalRatingsCount = book.totalRatingsCount + subs.length ∧
      book2.averageRating * (book2.totalRatingsCount : ℚ) =
        book.averageRating * (book.totalRatingsCount : ℚ) +
          (subs.map Prod.snd).sum := by
  intro subs
  induction subs with
  | nil =>
    intro st book hbook _ _ _
    exact ⟨book, hbook, by simp, by simp⟩
  | cons p rest ih =>
    intro st book hbook hfresh hnodup hvalid
    obtain ⟨h1, h5⟩ := hvalid p (List.mem_cons_self p rest)
    have hnew := hfresh p (List.mem_cons_self p rest)
    have hstep := handleBookRating_success_eq hnew h1 h5 hbook
    have hrun : runSubmissions st bookId (p :: rest) =
        runSubmissions ⟨st.ratings ++ [⟨bookId, p.1, p.2⟩],
          saveBook st.books (ratedBook book p.2)⟩ bookId rest := by
      simp only [runSubmissions, List.foldl_cons, hstep]
    have hbook1 :
        findBookById (saveBook st.books (ratedBook book p.2)) bookId =
          some (ratedBook book p.2) :=
      findBookById_saveBook_of_found hbook rfl
    have hp_notmem : p.1 ∉ rest.map Prod.fst := (List.nodup_cons.mp hnodup).1
    have hfresh1 : ∀ q ∈ rest,
        findByBookAndUser (st.ratings ++ [⟨bookId, p.1, p.2⟩]) bookId q.1 =
          none := by
      intro q hq
      have hq0 : pairCount st.ratings bookId q.1 = 0 :=
        (findByBookAndUser_eq_none_iff _ _ _).mp
          (hfresh q (List.mem_cons_of_mem p hq))
      have hqp : p.1 ≠ q.1 := by
        intro hc
        exact hp_notmem (hc ▸ List.mem_map_of_mem Prod.fst hq)
      rw [findByBookAndUser_eq_none_iff]
      rw [pairCount_append_user_ne _ _ _ hqp]
      exact hq0
    obtain ⟨book2, hfind2, hcount2, havg2⟩ :=
      ih ⟨st.ratings ++ [⟨bookId, p.1, p.2⟩],
          saveBook st.books (ratedBook book p.2)⟩ (ratedBook book p.2)
        hbook1 hfresh1 (List.nodup_cons.mp hnodup).2
        (fun q hq => hvalid q (List.mem_cons_of_mem p hq))
    refine ⟨book2, by rw [hrun]; exact hfind2, ?_, ?_⟩
    · rw [hcount2]
      show book.totalRatingsCount + 1 + rest.length =
        book.totalRatingsCount + (rest.length + 1)
      omega
    · rw [havg2]
      have hden : ((book.totalRatingsCount : ℚ) + 1) ≠ 0 := by positivity
      have hcast : (((book.totalRatingsCount + 1 : ℕ)) : ℚ) =
          (book.totalRatingsCount : ℚ) + 1 := by push_cast; ring
      have hrated : (ratedBook book p.2).averageRating *
          ((ratedBook book p.2).totalRatingsCount : ℚ) =
          book.averageRating * (book.totalRatingsCount : ℚ) + p.2 := by
        show (book.averageRating * (book.totalRatingsCount : ℚ) + p.2) /
            ((book.totalRatingsCount : ℚ) + 1) *
            (((book.totalRatingsCount + 1 : ℕ)) : ℚ) = _
        rw [hcast, div_mul_cancel₀ _ hden]
      rw [hrated]
      simp only [List.map_cons, List.sum_cons]
      ring

/-- C1: starting from a zero-initialised item, a sequence of n accepted
submissions with scores s1..sn leaves the item with averageRating equal to
(s1+...+sn)/n, with averageRating * totalRatingsCount reconstructing the sum
exactly (the embedding uses exact rational arithmetic), and
totalRatingsCount = n. -/
theorem aggregate_consistency (st : StoreState) (bookId : Nat) (book : Book)
    (subs : List (Nat × ℚ))
    (hbook : findBookById st.books bookId = some book)
    (hzavg : book.averageRating = 0) (hzcount : book.totalRatingsCount = 0)
    (hfresh : ∀ p ∈ subs, findByBookAndUser st.ratings bookId p.1 = none)
    (hnodup : (subs.map Prod.fst).Nodup)
    (hvalid : ∀ p ∈ subs, 1 ≤ p.2 ∧ p.2 ≤ 5)
    (hne : subs ≠ []) :
    ∃ book2 : Book,
      findBookById (runSubmissions st bookId subs).books bookId = some book2 ∧
      book2.totalRatingsCount = subs.length ∧
      book2.averageRating * (book2.totalRatingsCount : ℚ) =
        (subs.map Prod.snd).sum ∧
      book2.averageRating = (subs.map Prod.snd).sum / (subs.length : ℚ) := by
  obtain ⟨book2, hfind, hcount, havg⟩ :=
    runSubmissions_invariant bookId subs st book hbook hfresh hnodup hvalid
  rw [hzcount] at hcount
  rw [hzavg, hzcount] at havg
  simp only [Nat.zero_add, Nat.cast_zero, zero_mul, zero_add] at hcount havg
  have hlen : ((subs.length : ℚ)) ≠ 0 := by
    have : subs.length ≠ 0 := fun hc => hne (List.length_eq_zero.mp hc)
    exact_mod_cast this
  refine ⟨book2, hfind, hcount, havg, ?_⟩
  rw [eq_div_iff hlen, ← hcount]
  exact_mod_cast havg

/-- Witness for C1: rater 7 submits 4, then rater 8 submits 2, on the fresh
example book; the final aggregate is (3, 2). -/
theorem aggregate_consistency_witness :
    ∃ book2 : Book,
      findBookById (runSubmissions stEx 1 [(7, 4), (8, 2)]).books 1 =
        some book2 ∧
      book2.totalRatingsCount = ([((7 : Nat), (4 : ℚ)), (8, 2)]).length ∧
      book2.averageRating * (book2.totalRatingsCount : ℚ) =
        (([((7 : Nat), (4 : ℚ)), (8, 2)]).map Prod.snd).sum ∧
      book2.averageRating =
        (([((7 : Nat), (4 : ℚ)), (8, 2)]).map Prod.snd).sum /
          ((([((7 : Nat), (4 : ℚ)), (8, 2)]).length : ℚ)) :=
  aggregate_consistency stEx 1 bookEx [(7, 4), (8, 2)] rfl rfl rfl
    (fun p _ => rfl) (by decide)
    (by
      intro p hp
      rcases List.mem_cons.mp hp with rfl | hp2
      · exact ⟨by norm_num, by norm_num⟩
      · rcases List.mem_cons.mp hp2 with rfl | h3
        · exact ⟨by norm_num, by norm_num⟩
        · simp at h3)
    (by simp)

/-! ### Lemmas about the small-step semantics -/

lemma stepThread_fields (store : StoreState) (t : Thread) :
    (stepThread store t).2 = { t with pc := (stepThread store t).2.pc } := by
  cases t with
  | mk b u s p =>
    cases p <;> simp only [stepThread] <;> split <;> rfl

lemma run_nil (cfg : Config) : run cfg [] = cfg := rfl

lemma run_cons (cfg : Config) (i : Nat) (sched : List Nat) :
    run cfg (i :: sched) = run (step cfg i) sched := rfl

lemma step_twoThreadCfg_zero (bid u0 u1 : Nat) (s0 s1 : ℚ)
    (store : StoreState) (p0 p1 : TPC) :
    step (twoThreadCfg bid u0 u1 s0 s1 store p0 p1) 0 =
      twoThreadCfg bid u0 u1 s0 s1 (stepThread store ⟨bid, u0, s0, p0⟩).1
        ((stepThread store ⟨bid, u0, s0, p0⟩).2.pc) p1 := by
  have hT := stepThread_fields store (⟨bid, u0, s0, p0⟩ : Thread)
  show (⟨(stepThread store ⟨bid, u0, s0, p0⟩).1,
      [(stepThread store ⟨bid, u0, s0, p0⟩).2, ⟨bid, u1, s1, p1⟩]⟩ : Config) =
    ⟨(stepThread store ⟨bid, u0, s0, p0⟩).1,
      [⟨bid, u0, s0, (stepThread store ⟨bid, u0, s0, p0⟩).2.pc⟩,
        ⟨bid, u1, s1, p1⟩]⟩
  rw [hT]

lemma step_twoThreadCfg_one (bid u0 u1 : Nat) (s0 s1 : ℚ)
    (store : StoreState) (p0 p1 : TPC) :
    step (twoThreadCfg bid u0 u1 s0 s1 store p0 p1) 1 =
      twoThreadCfg bid u0 u1 s0 s1 (stepThread store ⟨bid, u1, s1, p1⟩).1
        p0 ((stepThread store ⟨bid, u1, s1, p1⟩).2.pc) := by
  have hT := stepThread_fields store (⟨bid, u1, s1, p1⟩ : Thread)
  show (⟨(stepThread store ⟨bid, u1, s1, p1⟩).1,
      [⟨bid, u0, s0, p0⟩, (stepThread store ⟨bid, u1, s1, p1⟩).2]⟩ : Config) =
    ⟨(stepThread store ⟨bid, u1, s1, p1⟩).1,
      [⟨bid, u0, s0, p0⟩,
        ⟨bid, u1, s1, (stepThread store ⟨bid, u1, s1, p1⟩).2.pc⟩]⟩
  rw [hT]

lemma step_twoThreadCfg_ge_two (bid u0 u1 : Nat) (s0 s1 : ℚ)
    (store : StoreState) (p0 p1 : TPC) (n : Nat) :
    step (twoThreadCfg bid u0 u1 s0 s1 store p0 p1) (n + 2) =
      twoThreadCfg bid u0 u1 s0 s1 store p0 p1 := rfl

/-- Admissible terminal errors of a thread racing on its own pair. -/
def errOk (e : RatingError) : Prop :=
  e = .duplicateRating ∨ e = .storageDuplicateKey

lemma findBookById_isSome_saveBook {books : List Book} {bid : Nat} (u : Book)
    (h : (findBookById books bid).isSome = true) :
    (findBookById (saveBook books u) bid).isSome = true := by
  rw [findBookById_isSome_iff, saveBook_map_id]
  rw [findBookById_isSome_iff] at h
  exact h

lemma pairCount_le_one_step (cfg : Config) (i : Nat)
    (hinv : ∀ b u, pairCount cfg.store.ratings b u ≤ 1) :
    ∀ b u, pairCount (step cfg i).store.ratings b u ≤ 1 := by
  intro b u
  cases hti : cfg.threads[i]? with
  | none =>
    have hcfg : step cfg i = cfg := by simp [step, hti]
    rw [hcfg]
    exact hinv b u
  | some t =>
    have hs : (step cfg i).store = (stepThread cfg.store t).1 := by
      simp [step, hti]
    rw [hs]
    cases hpc : t.pc with
    | start =>
      have hsame : (stepThread cfg.store t).1 = cfg.store := by
        simp only [stepThread, hpc]
        split <;> rfl
      rw [hsame]
      exact hinv b u
    | checked =>
      by_cases hval : (t.score < 1 ∨ 5 < t.score)
      · have hsame : (stepThread cfg.store t).1 = cfg.store := by
          simp [stepThread, hpc, createRating, hval]
        rw [hsame]
        exact hinv b u
      · by_cases hf :
          (findByBookAndUser cfg.store.ratings t.bookId t.userId).isSome = true
        · have hsame : (stepThread cfg.store t).1 = cfg.store := by
            simp [stepThread, hpc, createRating, hval, hf]
          rw [hsame]
          exact hinv b u
        · have hins : (stepThread cfg.store t).1 =
              ⟨cfg.store.ratings ++ [⟨t.bookId, t.userId, t.score⟩],
                cfg.store.books⟩ := by
            simp [stepThread, hpc, createRating, hval, hf]
          rw [hins]
          show pairCount
            (cfg.store.ratings ++ [⟨t.bookId, t.userId, t.score⟩]) b u ≤ 1
          rw [pairCount_append]
          by_cases hm :
              matchesPair b u ⟨t.bookId, t.userId, t.score⟩ = true
          · obtain ⟨hb1, hb2⟩ :
                t.bookId = b ∧ t.userId = u := by simpa [matchesPair] using hm
            subst hb1
            subst hb2
            have hzero : pairCount cfg.store.ratings t.bookId t.userId = 0 := by
              rcases Nat.eq_zero_or_pos
                  (pairCount cfg.store.ratings t.bookId t.userId) with h0 | h0
              · exact h0
              · exact absurd ((findByBookAndUser_isSome_iff _ _ _).mpr h0) hf
            rw [hzero, hm]
            simp
          · rw [Bool.not_eq_true] at hm
            rw [hm]
            simpa using hinv b u
    | inserted =>
      have hsame : (stepThread cfg.store t).1 = cfg.store := by
        simp only [stepThread, hpc]
        split <;> rfl
      rw [hsame]
      exact hinv b u
    | loaded upd =>
      have hsave : (stepThread cfg.store t).1 =
          ⟨cfg.store.ratings, saveBook cfg.store.books upd⟩ := by
        simp [stepThread, hpc]
      rw [hsave]
      exact hinv b u
    | doneOk =>
      have hsame : (stepThread cfg.store t).1 = cfg.store := by
        simp [stepThread, hpc]
      rw [hsame]
      exact hinv b u
    | doneErr e =>
      have hsame : (stepThread cfg.store t).1 = cfg.store := by
        simp [stepThread, hpc]
      rw [hsame]
      exact hinv b u

lemma pairCount_le_one_run :
    ∀ (sched : List Nat) (cfg : Config),
    (∀ b u, pairCount cfg.store.ratings b u ≤ 1) →
    ∀ b u, pairCount (run cfg sched).store.ratings b u ≤ 1 := by
  intro sched
  induction sched with
  | nil => intro cfg hinv; exact hinv
  | cons i rest ih =>
    intro cfg hinv
    rw [run_cons]
    exact ih (step cfg i) (pairCount_le_one_step cfg i hinv)

/-- C3 counterexample: two concurrent submissions with the identical
(book, user) pair, interleaved check-check-insert-insert, leave the loser
failed with the storage duplicate-key error, which is not the
DuplicateRating failure the claim promises. -/
theorem identical_pair_loser_error_counterexample :
    (run (twoThreadCfg 1 7 7 4 4 stEx .start .start) [0, 1, 0, 1]).threads[1]? =
      some ⟨1, 7, 4, .doneErr .storageDuplicateKey⟩ ∧
    RatingError.storageDuplicateKey ≠ RatingError.duplicateRating := by
  exact ⟨by decide, by decide⟩

/-- Total contribution of a thread list to its common pair's ledger count. -/
def contribSum (threads : List Thread) : Nat :=
  (threads.map (fun t => pcContrib t.pc)).sum

lemma contribSum_set (l : List Thread) (i : Nat) (t t2 : Thread)
    (h : l[i]? = some t) :
    contribSum (l.set i t2) + pcContrib t.pc =
      contribSum l + pcContrib t2.pc := by
  induction l generalizing i with
  | nil => simp at h
  | cons x xs ih =>
    cases i with
    | zero =>
      rw [List.getElem?_cons_zero] at h
      obtain rfl : x = t := Option.some_inj.mp h
      simp only [List.set_cons_zero, contribSum, List.map_cons, List.sum_cons]
      omega
    | succ n =>
      rw [List.getElem?_cons_succ] at h
      have hih := ih n h
      simp only [List.set_cons_succ, contribSum, List.map_cons,
        List.sum_cons] at hih ⊢
      omega

lemma fields_set {bid uid : Nat} {s : ℚ} {l : List Thread}
    (hflds : ∀ t ∈ l, t.bookId = bid ∧ t.userId = uid ∧ t.score = s)
    (i : Nat) (p2 : TPC) :
    ∀ t ∈ l.set i ⟨bid, uid, s, p2⟩,
      t.bookId = bid ∧ t.userId = uid ∧ t.score = s := by
  intro t2 ht2
  rcases List.mem_or_eq_of_mem_set ht2 with h | h
  · exact hflds t2 h
  · subst h
    exact ⟨rfl, rfl, rfl⟩

/-- Invariant of any number of in-flight submissions sharing one
(book, user) pair: every thread carries that pair, the book exists, the
pair's ledger count equals the number of threads past their insert and
never exceeds one, and a failed thread has an admissible error with the
pair already present in the ledger. -/
def InvN (bid uid : Nat) (s : ℚ) (ratings : List RatingEvent)
    (books : List Book) (threads : List Thread) : Prop :=
  (∀ t ∈ threads, t.bookId = bid ∧ t.userId = uid ∧ t.score = s) ∧
  (findBookById books bid).isSome = true ∧
  pairCount ratings bid uid = contribSum threads ∧
  pairCount ratings bid uid ≤ 1 ∧
  (∀ t ∈ threads, ∀ e, t.pc = .doneErr e →
    errOk e ∧ 1 ≤ pairCount ratings bid uid)

lemma invN_step {bid uid : Nat} {s : ℚ} (cfg : Config) (i : Nat)
    (h1 : 1 ≤ s) (h5 : s ≤ 5)
    (hinv : InvN bid uid s cfg.store.ratings cfg.store.books cfg.threads) :
    InvN bid uid s (step cfg i).store.ratings (step cfg i).store.books
      (step cfg i).threads := by
  obtain ⟨hflds, hbk, hsum, hle, herr⟩ := hinv
  have hval : ¬(s < 1 ∨ 5 < s) := not_or.mpr ⟨not_lt.mpr h1, not_lt.mpr h5⟩
  cases hti : cfg.threads[i]? with
  | none =>
    have hcfg : step cfg i = cfg := by simp [step, hti]
    rw [hcfg]
    exact ⟨hflds, hbk, hsum, hle, herr⟩
  | some t =>
    have hmem : t ∈ cfg.threads := List.getElem?_mem hti
    obtain ⟨htb, htu, hts⟩ := hflds t hmem
    obtain ⟨tb, tu, ts, tp⟩ := t
    have htb2 : bid = tb := htb.symm
    have htu2 : uid = tu := htu.symm
    have hts2 : s = ts := hts.symm
    subst htb2
    subst htu2
    subst hts2
    have hstep_eq : step cfg i =
        ⟨(stepThread cfg.store ⟨bid, uid, s, tp⟩).1,
          cfg.threads.set i (stepThread cfg.store ⟨bid, uid, s, tp⟩).2⟩ := by
      simp [step, hti]
    cases tp with
    | start =>
      by_cases hf : (findByBookAndUser cfg.store.ratings bid uid).isSome = true
      · have hgoal : step cfg i = ⟨cfg.store,
            cfg.threads.set i ⟨bid, uid, s, .doneErr .duplicateRating⟩⟩ := by
          rw [hstep_eq]
          have hred : stepThread cfg.store ⟨bid, uid, s, .start⟩ =
              (cfg.store, ⟨bid, uid, s, .doneErr .duplicateRating⟩) := by
            simp [stepThread, hf]
          rw [hred]
        simp only [hgoal]
        have hpos : 1 ≤ pairCount cfg.store.ratings bid uid :=
          (findByBookAndUser_isSome_iff _ _ _).mp hf
        have hcs := contribSum_set cfg.threads i _
          ⟨bid, uid, s, .doneErr .duplicateRating⟩ hti
        have hceq : contribSum
            (cfg.threads.set i ⟨bid, uid, s, .doneErr .duplicateRating⟩) =
            contribSum cfg.threads := by
          simp [pcContrib, afterInsert] at hcs
          omega
        refine ⟨fields_set hflds i _, hbk, ?_, hle, ?_⟩
        · rw [hceq]
          exact hsum
        · intro t2 ht2 e he
          rcases List.mem_or_eq_of_mem_set ht2 with hm2 | heq2
          · exact herr t2 hm2 e he
          · subst heq2
            cases he
            exact ⟨Or.inl rfl, hpos⟩
      · have hgoal : step cfg i = ⟨cfg.store,
            cfg.threads.set i ⟨bid, uid, s, .checked⟩⟩ := by
          rw [hstep_eq]
          have hred : stepThread cfg.store ⟨bid, uid, s, .start⟩ =
              (cfg.store, ⟨bid, uid, s, .checked⟩) := by
            simp [stepThread, hf]
          rw [hred]
        simp only [hgoal]
        have hcs := contribSum_set cfg.threads i _
          ⟨bid, uid, s, .checked⟩ hti
        have hceq : contribSum (cfg.threads.set i ⟨bid, uid, s, .checked⟩) =
            contribSum cfg.threads := by
          simp [pcContrib, afterInsert] at hcs
          omega
        refine ⟨fields_set hflds i _, hbk, ?_, hle, ?_⟩
        · rw [hceq]
          exact hsum
        · intro t2 ht2 e he
          rcases List.mem_or_eq_of_mem_set ht2 with hm2 | heq2
          · exact herr t2 hm2 e he
          · subst heq2
            cases he
    | checked =>
      by_cases hf : (findByBookAndUser cfg.store.ratings bid uid).isSome = true
      · have hgoal : step cfg i = ⟨cfg.store,
            cfg.threads.set i ⟨bid, uid, s, .doneErr .storageDuplicateKey⟩⟩ := by
          rw [hstep_eq]
          have hred : stepThread cfg.store ⟨bid, uid, s, .checked⟩ =
              (cfg.store, ⟨bid, uid, s, .doneErr .storageDuplicateKey⟩) := by
            simp [stepThread, createRating, hval, hf]
          rw [hred]
        simp only [hgoal]
        have hpos : 1 ≤ pairCount cfg.store.ratings bid uid :=
          (findByBookAndUser_isSome_iff _ _ _).mp hf
        have hcs := contribSum_set cfg.threads i _
          ⟨bid, uid, s, .doneErr .storageDuplicateKey⟩ hti
        have hceq : contribSum
            (cfg.threads.set i ⟨bid, uid, s, .doneErr .storageDuplicateKey⟩) =
            contribSum cfg.threads := by
          simp [pcContrib, afterInsert] at hcs
          omega
        refine ⟨fields_set hflds i _, hbk, ?_, hle, ?_⟩
        · rw [hceq]
          exact hsum
        · intro t2 ht2 e he
          rcases List.mem_or_eq_of_mem_set ht2 with hm2 | heq2
          · exact herr t2 hm2 e he
          · subst heq2
            cases he
            exact ⟨Or.inr rfl, hpos⟩
      · have hgoal : step cfg i =
            ⟨⟨cfg.store.ratings ++ [⟨bid, uid, s⟩], cfg.store.books⟩,
              cfg.threads.set i ⟨bid, uid, s, .inserted⟩⟩ := by
          rw [hstep_eq]
          have hred : stepThread cfg.store ⟨bid, uid, s, .checked⟩ =
              (⟨cfg.store.ratings ++ [⟨bid, uid, s⟩], cfg.store.books⟩,
                ⟨bid, uid, s, .inserted⟩) := by
            simp [stepThread, createRating, hval, hf]
          rw [hred]
        simp only [hgoal]
        have hzero : pairCount cfg.store.ratings bid uid = 0 := by
          rcases Nat.eq_zero_or_pos
              (pairCount cfg.store.ratings bid uid) with h0 | h0
          · exact h0
          · exact absurd ((findByBookAndUser_isSome_iff _ _ _).mpr h0) hf
        have hnew : pairCount (cfg.store.ratings ++ [⟨bid, uid, s⟩]) bid uid =
            1 := by
          rw [pairCount_append_self, hzero]
        have hcsum0 : contribSum cfg.threads = 0 := by
          rw [← hsum]
          exact hzero
        have hcs := contribSum_set cfg.threads i _
          ⟨bid, uid, s, .inserted⟩ hti
        have hceq : contribSum (cfg.threads.set i ⟨bid, uid, s, .inserted⟩) =
            1 := by
          simp [pcContrib, afterInsert] at hcs
          omega
        refine ⟨fields_set hflds i _, hbk, ?_, ?_, ?_⟩
        · rw [hnew, hceq]
        · rw [hnew]
        · intro t2 ht2 e he
          rcases List.mem_or_eq_of_mem_set ht2 with hm2 | heq2
          · exact ⟨(herr t2 hm2 e he).1, by rw [hnew]⟩
          · subst heq2
            cases he
    | inserted =>
      obtain ⟨bk, hbkeq⟩ := Option.isSome_iff_exists.mp hbk
      have hgoal : step cfg i = ⟨cfg.store,
          cfg.threads.set i ⟨bid, uid, s, .loaded (ratedBook bk s)⟩⟩ := by
        rw [hstep_eq]
        have hred : stepThread cfg.store ⟨bid, uid, s, .inserted⟩ =
            (cfg.store, ⟨bid, uid, s, .loaded (ratedBook bk s)⟩) := by
          simp [stepThread, hbkeq]
        rw [hred]
      simp only [hgoal]
      have hcs := contribSum_set cfg.threads i _
        ⟨bid, uid, s, .loaded (ratedBook bk s)⟩ hti
      have hceq : contribSum
          (cfg.threads.set i ⟨bid, uid, s, .loaded (ratedBook bk s)⟩) =
          contribSum cfg.threads := by
        simp [pcContrib, afterInsert] at hcs
        omega
      refine ⟨fields_set hflds i _, hbk, ?_, hle, ?_⟩
      · rw [hceq]
        exact hsum
      · intro t2 ht2 e he
        rcases List.mem_or_eq_of_mem_set ht2 with hm2 | heq2
        · exact herr t2 hm2 e he
        · subst heq2
          cases he
    | loaded upd =>
      have hgoal : step cfg i =
          ⟨⟨cfg.store.ratings, saveBook cfg.store.books upd⟩,
            cfg.threads.set i ⟨bid, uid, s, .doneOk⟩⟩ := by
        rw [hstep_eq]
        have hred : stepThread cfg.store ⟨bid, uid, s, .loaded upd⟩ =
            (⟨cfg.store.ratings, saveBook cfg.store.books upd⟩,
              ⟨bid, uid, s, .doneOk⟩) := rfl
        rw [hred]
      simp only [hgoal]
      have hcs := contribSum_set cfg.threads i _ ⟨bid, uid, s, .doneOk⟩ hti
      have hceq : contribSum (cfg.threads.set i ⟨bid, uid, s, .doneOk⟩) =
          contribSum cfg.threads := by
        simp [pcContrib, afterInsert] at hcs
        omega
      refine ⟨fields_set hflds i _, findBookById_isSome_saveBook upd hbk,
        ?_, hle, ?_⟩
      · rw [hceq]
        exact hsum
      · intro t2 ht2 e he
        rcases List.mem_or_eq_of_mem_set ht2 with hm2 | heq2
        · exact herr t2 hm2 e he
        · subst heq2
          cases he
    | doneOk =>
      have hgoal : step cfg i = ⟨cfg.store,
          cfg.threads.set i ⟨bid, uid, s, .doneOk⟩⟩ := by
        rw [hstep_eq]
        rfl
      simp only [hgoal]
      have hcs := contribSum_set cfg.threads i _ ⟨bid, uid, s, .doneOk⟩ hti
      have hceq : contribSum (cfg.threads.set i ⟨bid, uid, s, .doneOk⟩) =
          contribSum cfg.threads := by
        simp [pcContrib, afterInsert] at hcs
        omega
      refine ⟨fields_set hflds i _, hbk, ?_, hle, ?_⟩
      · rw [hceq]
        exact hsum
      · intro t2 ht2 e he
        rcases List.mem_or_eq_of_mem_set ht2 with hm2 | heq2
        · exact herr t2 hm2 e he
        · subst heq2
          cases he
    | doneErr e0 =>
      have hgoal : step cfg i = ⟨cfg.store,
          cfg.threads.set i ⟨bid, uid, s, .doneErr e0⟩⟩ := by
        rw [hstep_eq]
        rfl
      simp only [hgoal]
      have hcs := contribSum_set cfg.threads i _ ⟨bid, uid, s, .doneErr e0⟩ hti
      have hceq : contribSum (cfg.threads.set i ⟨bid, uid, s, .doneErr e0⟩) =
          contribSum cfg.threads := by
        simp [pcContrib, afterInsert] at hcs
        omega
      refine ⟨fields_set hflds i _, hbk, ?_, hle, ?_⟩
      · rw [hceq]
        exact hsum
      · intro t2 ht2 e he
        rcases List.mem_or_eq_of_mem_set ht2 with hm2 | heq2
        · exact herr t2 hm2 e he
        · subst heq2
          cases he
          exact herr ⟨bid, uid, s, .doneErr e0⟩ hmem e0 rfl

lemma invN_run (bid uid : Nat) (s : ℚ) (h1 : 1 ≤ s) (h5 : s ≤ 5) :
    ∀ (sched : List Nat) (cfg : Config),
    InvN bid uid s cfg.store.ratings cfg.store.books cfg.threads →
    InvN bid uid s (run cfg sched).store.ratings
      (run cfg sched).store.books (run cfg sched).threads := by
  intro sched
  induction sched with
  | nil => intro cfg hinv; exact hinv
  | cons i rest ih =>
    intro cfg hinv
    rw [run_cons]
    exact ih (step cfg i) (invN_step cfg i h1 h5 hinv)

lemma step_threads_length (cfg : Config) (i : Nat) :
    (step cfg i).threads.length = cfg.threads.length := by
  cases hti : cfg.threads[i]? with
  | none => simp [step, hti]
  | some t => simp [step, hti]

lemma run_threads_length :
    ∀ (sched : List Nat) (cfg : Config),
    (run cfg sched).threads.length = cfg.threads.length := by
  intro sched
  induction sched with
  | nil => intro cfg; rfl
  | cons i rest ih =>
    intro cfg
    rw [run_cons, ih, step_threads_length]

lemma contribSum_eq_countP_of_done {l : List Thread}
    (hall : ∀ t ∈ l, isDoneB t.pc = true) :
    contribSum l = l.countP (fun t => t.pc == TPC.doneOk) := by
  induction l with
  | nil => rfl
  | cons x xs ih =>
    have hx := hall x (List.mem_cons_self x xs)
    have hxs : ∀ t ∈ xs, isDoneB t.pc = true :=
      fun t ht => hall t (List.mem_cons_of_mem x ht)
    have hhead : contribSum (x :: xs) = pcContrib x.pc + contribSum xs := by
      simp [contribSum]
    rw [hhead, List.countP_cons, ih hxs]
    cases hpc : x.pc with
    | start => rw [hpc] at hx; simp [isDoneB] at hx
    | checked => rw [hpc] at hx; simp [isDoneB] at hx
    | inserted => rw [hpc] at hx; simp [isDoneB] at hx
    | loaded u => rw [hpc] at hx; simp [isDoneB] at hx
    | doneOk =>
      simp [pcContrib, afterInsert]
      omega
    | doneErr e =>
      simp [pcContrib, afterInsert]

lemma invN_all_done_classify {bid uid : Nat} {s : ℚ}
    {ratings : List RatingEvent} {books : List Book} {threads : List Thread}
    (hinv : InvN bid uid s ratings books threads)
    (hne : threads ≠ [])
    (hall : ∀ t ∈ threads, isDoneB t.pc = true) :
    threads.countP (fun t => t.pc == TPC.doneOk) = 1 ∧
    ∀ t ∈ threads, t.pc ≠ .doneOk → ∃ e, t.pc = .doneErr e ∧ errOk e := by
  obtain ⟨hflds, hbk, hsum, hle, herr⟩ := hinv
  have hcnt := contribSum_eq_countP_of_done hall
  have hk1 : threads.countP (fun t => t.pc == TPC.doneOk) ≤ 1 := by
    rw [← hcnt, ← hsum]
    exact hle
  constructor
  · rcases Nat.lt_or_ge (threads.countP (fun t => t.pc == TPC.doneOk)) 1
      with hk | hk
    · exfalso
      have hk0 : threads.countP (fun t => t.pc == TPC.doneOk) = 0 := by omega
      obtain ⟨t0, ht0⟩ := List.exists_mem_of_ne_nil threads hne
      have hnotok := List.countP_eq_zero.mp hk0 t0 ht0
      have hd := hall t0 ht0
      have hde : ∃ e, t0.pc = .doneErr e := by
        cases hpc : t0.pc with
        | start => rw [hpc] at hd; simp [isDoneB] at hd
        | checked => rw [hpc] at hd; simp [isDoneB] at hd
        | inserted => rw [hpc] at hd; simp [isDoneB] at hd
        | loaded u => rw [hpc] at hd; simp [isDoneB] at hd
        | doneOk => rw [hpc] at hnotok; simp at hnotok
        | doneErr e => exact ⟨e, rfl⟩
      obtain ⟨e, he⟩ := hde
      have hge := (herr t0 ht0 e he).2
      rw [hsum, hcnt, hk0] at hge
      omega
    · omega
  · intro t ht hnok
    have hd := hall t ht
    cases hpc : t.pc with
    | start => rw [hpc] at hd; simp [isDoneB] at hd
    | checked => rw [hpc] at hd; simp [isDoneB] at hd
    | inserted => rw [hpc] at hd; simp [isDoneB] at hd
    | loaded u => rw [hpc] at hd; simp [isDoneB] at hd
    | doneOk => exact absurd hpc hnok
    | doneErr e => exact ⟨e, rfl, (herr t ht e hpc).1⟩

/-- C3 amended: the ledger never holds more than one RatingEvent per
(book, user) pair under any interleaving of any number of in-flight
submissions, and of N concurrent submissions with the identical pair
exactly one succeeds once all have terminated while the other N − 1 fail —
but a loser fails either with DuplicateRating (application-level check) or
with the storage duplicate-key error (losing the insert race), not
necessarily DuplicateRating. -/
theorem uniqueness_invariant_amended :
    (∀ (cfg : Config) (sched : List Nat),
      (∀ b u, pairCount cfg.store.ratings b u ≤ 1) →
      ∀ b u, pairCount (run cfg sched).store.ratings b u ≤ 1) ∧
    (∀ (bid uid : Nat) (s : ℚ) (st : StoreState) (n : Nat) (sched : List Nat),
      1 ≤ s → s ≤ 5 →
      (findBookById st.books bid).isSome = true →
      pairCount st.ratings bid uid = 0 →
      1 ≤ n →
      pairCount (run ⟨st, List.replicate n ⟨bid, uid, s, .start⟩⟩
          sched).store.ratings bid uid ≤ 1 ∧
      (run ⟨st, List.replicate n ⟨bid, uid, s, .start⟩⟩
          sched).threads.length = n ∧
      ((∀ t ∈ (run ⟨st, List.replicate n ⟨bid, uid, s, .start⟩⟩ sched).threads,
          isDoneB t.pc = true) →
        (run ⟨st, List.replicate n ⟨bid, uid, s, .start⟩⟩
            sched).threads.countP (fun t => t.pc == TPC.doneOk) = 1 ∧
        ∀ t ∈ (run ⟨st, List.replicate n ⟨bid, uid, s, .start⟩⟩ sched).threads,
          t.pc ≠ .doneOk → ∃ e, t.pc = .doneErr e ∧ errOk e)) := by
  constructor
  · intro cfg sched h
    exact pairCount_le_one_run sched cfg h
  · intro bid uid s st n sched h1 h5 hbk hc0 hn
    have hinv0 : InvN bid uid s st.ratings st.books
        (List.replicate n ⟨bid, uid, s, .start⟩) := by
      refine ⟨?_, hbk, ?_, ?_, ?_⟩
      · intro t ht
        have ht2 := List.eq_of_mem_replicate ht
        subst ht2
        exact ⟨rfl, rfl, rfl⟩
      · rw [hc0]
        simp [contribSum, List.map_replicate, List.sum_replicate, pcContrib,
          afterInsert]
      · rw [hc0]
        omega
      · intro t ht e he
        have ht2 := List.eq_of_mem_replicate ht
        subst ht2
        cases he
    have hinv := invN_run bid uid s h1 h5 sched
      ⟨st, List.replicate n ⟨bid, uid, s, .start⟩⟩ hinv0
    refine ⟨hinv.2.2.2.1, ?_, ?_⟩
    · rw [run_threads_length]
      exact List.length_replicate n _
    · intro hall
      have hne : (run ⟨st, List.replicate n ⟨bid, uid, s, .start⟩⟩
          sched).threads ≠ [] := by
        rw [← List.length_pos, run_threads_length, List.length_replicate]
        omega
      exact invN_all_done_classify hinv hne hall

/-- Witness for the amended C3: three concurrent identical submissions
(book 1, user 7, score 4) under a schedule that completes all three —
thread 0 wins, thread 1 loses the storage-level insert race
(storage duplicate-key error), thread 2 is caught by the application-level
check (DuplicateRating): exactly one success, two admissible failures. -/
theorem uniqueness_invariant_amended_witness :
    (∀ b u, pairCount (run
        (Config.mk stEx (List.replicate 3 ⟨1, 7, (4 : ℚ), .start⟩))
        [0, 1, 0, 1, 0, 0, 2]).store.ratings b u ≤ 1) ∧
    (run (Config.mk stEx (List.replicate 3 ⟨1, 7, (4 : ℚ), .start⟩))
        [0, 1, 0, 1, 0, 0, 2]).threads.length = 3 ∧
    (∀ t ∈ (run (Config.mk stEx (List.replicate 3 ⟨1, 7, (4 : ℚ), .start⟩))
        [0, 1, 0, 1, 0, 0, 2]).threads, isDoneB t.pc = true) ∧
    (run (Config.mk stEx (List.replicate 3 ⟨1, 7, (4 : ℚ), .start⟩))
        [0, 1, 0, 1, 0, 0, 2]).threads.countP
        (fun t => t.pc == TPC.doneOk) = 1 ∧
    (∀ t ∈ (run (Config.mk stEx (List.replicate 3 ⟨1, 7, (4 : ℚ), .start⟩))
        [0, 1, 0, 1, 0, 0, 2]).threads,
      t.pc ≠ .doneOk → ∃ e, t.pc = .doneErr e ∧ errOk e) := by
  have hall : ∀ t ∈ (run
      (Config.mk stEx (List.replicate 3 ⟨1, 7, (4 : ℚ), .start⟩))
      [0, 1, 0, 1, 0, 0, 2]).threads, isDoneB t.pc = true := by decide
  have h := uniqueness_invariant_amended.2 1 7 4 stEx 3 [0, 1, 0, 1, 0, 0, 2]
    (by norm_num) (by norm_num) rfl rfl (by norm_num)
  exact ⟨uniqueness_invariant_amended.1
      (Config.mk stEx (List.replicate 3 ⟨1, 7, (4 : ℚ), .start⟩))
      [0, 1, 0, 1, 0, 0, 2] (fun b u => by simp [stEx, pairCount]),
    h.2.1, hall, (h.2.2 hall).1, (h.2.2 hall).2⟩

/-- C7: a submission that passes the application-level existence check but
loses the storage-level insert race fails with the storage duplicate-key
error; the controller catch clause recognises only the two Spanish service
messages, so this failure surfaces as a 500 internal error, not as the 409
DuplicateRating conflict produced when the application-level check detects
the duplicate. -/
theorem race_loser_surfaces_internal_error :
    (run (twoThreadCfg 1 7 7 4 4 stEx .start .start) [0, 1, 0, 1]).threads[1]? =
      some ⟨1, 7, 4, .doneErr .storageDuplicateKey⟩ ∧
    translateServiceError .storageDuplicateKey =
      .internalError (errMessage .storageDuplicateKey) ∧
    translateServiceError .duplicateRating =
      .conflict (errMessage .duplicateRating) ∧
    translateServiceError .storageDuplicateKey ≠
      translateServiceError .duplicateRating := by
  exact ⟨by decide, by decide, by decide, by decide⟩

/-- Invariant of two in-flight submissions on the same book by two different
raters: the book exists, each rater's ledger count equals that thread's
progress past its insert, and neither thread has failed. -/
def InvD (bid u0 u1 : Nat) (store : StoreState) (p0 p1 : TPC) : Prop :=
  (findBookById store.books bid).isSome = true ∧
  pairCount store.ratings bid u0 = pcContrib p0 ∧
  pairCount store.ratings bid u1 = pcContrib p1 ∧
  (∀ e, p0 ≠ .doneErr e) ∧
  (∀ e, p1 ≠ .doneErr e)

lemma invD_swap {bid u0 u1 : Nat} {store : StoreState} {p0 p1 : TPC}
    (h : InvD bid u0 u1 store p0 p1) : InvD bid u1 u0 store p1 p0 := by
  obtain ⟨hbk, hc0, hc1, he0, he1⟩ := h
  exact ⟨hbk, hc1, hc0, he1, he0⟩

lemma invD_stepThread {bid u0 u1 : Nat} {s : ℚ} {store : StoreState}
    {p0 p1 : TPC} (hne : u0 ≠ u1) (h1 : 1 ≤ s) (h5 : s ≤ 5)
    (hinv : InvD bid u0 u1 store p0 p1) :
    InvD bid u0 u1 (stepThread store ⟨bid, u0, s, p0⟩).1
      ((stepThread store ⟨bid, u0, s, p0⟩).2.pc) p1 := by
  obtain ⟨hbk, hc0, hc1, he0, he1⟩ := hinv
  have hval : ¬(s < 1 ∨ 5 < s) := not_or.mpr ⟨not_lt.mpr h1, not_lt.mpr h5⟩
  cases p0 with
  | start =>
    have hf : ¬(findByBookAndUser store.ratings bid u0).isSome = true := by
      intro hf
      have hpos := (findByBookAndUser_isSome_iff _ _ _).mp hf
      rw [hc0] at hpos
      simp [pcContrib, afterInsert] at hpos
    have hred : stepThread store ⟨bid, u0, s, .start⟩ =
        (store, ⟨bid, u0, s, .checked⟩) := by
      simp [stepThread, hf]
    rw [hred]
    refine ⟨hbk, by simpa [pcContrib, afterInsert] using hc0, hc1, ?_, he1⟩
    intro e he
    cases he
  | checked =>
    have hf : ¬(findByBookAndUser store.ratings bid u0).isSome = true := by
      intro hf
      have hpos := (findByBookAndUser_isSome_iff _ _ _).mp hf
      rw [hc0] at hpos
      simp [pcContrib, afterInsert] at hpos
    have hzero : pairCount store.ratings bid u0 = 0 := by
      rw [hc0]
      rfl
    have hred : stepThread store ⟨bid, u0, s, .checked⟩ =
        (⟨store.ratings ++ [⟨bid, u0, s⟩], store.books⟩,
          ⟨bid, u0, s, .inserted⟩) := by
      simp [stepThread, createRating, hval, hf]
    rw [hred]
    refine ⟨hbk, ?_, ?_, ?_, he1⟩
    · rw [pairCount_append_self, hzero]
      rfl
    · rw [pairCount_append_user_ne _ _ _ hne]
      exact hc1
    · intro e he
      cases he
  | inserted =>
    obtain ⟨bk, hbkeq⟩ := Option.isSome_iff_exists.mp hbk
    have hred : stepThread store ⟨bid, u0, s, .inserted⟩ =
        (store, ⟨bid, u0, s, .loaded (ratedBook bk s)⟩) := by
      simp [stepThread, hbkeq]
    rw [hred]
    refine ⟨hbk, by simpa [pcContrib, afterInsert] using hc0, hc1, ?_, he1⟩
    intro e he
    cases he
  | loaded upd =>
    have hred : stepThread store ⟨bid, u0, s, .loaded upd⟩ =
        (⟨store.ratings, saveBook store.books upd⟩,
          ⟨bid, u0, s, .doneOk⟩) := rfl
    rw [hred]
    refine ⟨findBookById_isSome_saveBook upd hbk,
      by simpa [pcContrib, afterInsert] using hc0, hc1, ?_, he1⟩
    intro e he
    cases he
  | doneOk =>
    have hred : stepThread store ⟨bid, u0, s, .doneOk⟩ =
        (store, ⟨bid, u0, s, .doneOk⟩) := rfl
    rw [hred]
    refine ⟨hbk, hc0, hc1, ?_, he1⟩
    intro e he
    cases he
  | doneErr e0 =>
    exact absurd rfl (he0 e0)

lemma invD_run (bid u0 u1 : Nat) (s0 s1 : ℚ) (hne : u0 ≠ u1)
    (h10 : 1 ≤ s0) (h50 : s0 ≤ 5) (h11 : 1 ≤ s1) (h51 : s1 ≤ 5) :
    ∀ (sched : List Nat) (store : StoreState) (p0 p1 : TPC),
    InvD bid u0 u1 store p0 p1 →
    ∃ store2 p02 p12,
      run (twoThreadCfg bid u0 u1 s0 s1 store p0 p1) sched =
        twoThreadCfg bid u0 u1 s0 s1 store2 p02 p12 ∧
      InvD bid u0 u1 store2 p02 p12 := by
  intro sched
  induction sched with
  | nil =>
    intro store p0 p1 hinv
    exact ⟨store, p0, p1, rfl, hinv⟩
  | cons i rest ih =>
    intro store p0 p1 hinv
    rw [run_cons]
    match i with
    | 0 =>
      rw [step_twoThreadCfg_zero]
      exact ih _ _ _ (invD_stepThread hne h10 h50 hinv)
    | 1 =>
      rw [step_twoThreadCfg_one]
      exact ih _ _ _ (invD_swap (invD_stepThread hne.symm h11 h51
        (invD_swap hinv)))
    | (n + 2) =>
      rw [step_twoThreadCfg_ge_two]
      exact ih _ _ _ hinv

lemma done_of_no_err {p : TPC} (hd : isDoneB p = true)
    (he : ∀ e, p ≠ .doneErr e) : p = .doneOk := by
  cases p with
  | start => simp [isDoneB] at hd
  | checked => simp [isDoneB] at hd
  | inserted => simp [isDoneB] at hd
  | loaded u => simp [isDoneB] at hd
  | doneOk => rfl
  | doneErr e => exact absurd rfl (he e)

/-- C8 counterexample: two concurrent submissions on book 1 by raters 7
and 8, interleaved in lockstep, both succeed, yet the final
totalRatingsCount is 1 — the second aggregate write clobbers the first, so
the count does not increase by exactly 2. -/
theorem lost_update_counterexample :
    (run (twoThreadCfg 1 7 8 4 2 stEx .start .start)
      [0, 1, 0, 1, 0, 1, 0, 1]).threads.map Thread.pc =
      [.doneOk, .doneOk] ∧
    (findBookById (run (twoThreadCfg 1 7 8 4 2 stEx .start .start)
      [0, 1, 0, 1, 0, 1, 0, 1]).store.books 1).map Book.totalRatingsCount =
      some 1 ∧
    (1 : Nat) ≠ bookEx.totalRatingsCount + 2 := by
  exact ⟨by decide, by decide, by decide⟩

/-- C8 amended: two concurrent submissions on the same item by two different
raters never fail — whenever both have terminated, both succeeded — but the
final totalRatingsCount need not reflect both contributions: the aggregate
read-modify-write sequences are not mutually exclusive, and under the
lockstep interleaving the count increases by only 1 instead of 2. -/
theorem lost_update_amended :
    (∀ (bid u0 u1 : Nat) (s0 s1 : ℚ) (st : StoreState), u0 ≠ u1 →
      1 ≤ s0 → s0 ≤ 5 → 1 ≤ s1 → s1 ≤ 5 →
      (findBookById st.books bid).isSome = true →
      pairCount st.ratings bid u0 = 0 →
      pairCount st.ratings bid u1 = 0 →
      ∀ sched : List Nat, ∃ store2 p0 p1,
        run (twoThreadCfg bid u0 u1 s0 s1 st .start .start) sched =
          twoThreadCfg bid u0 u1 s0 s1 store2 p0 p1 ∧
        (isDoneB p0 = true → p0 = .doneOk) ∧
        (isDoneB p1 = true → p1 = .doneOk)) ∧
    ((run (twoThreadCfg 1 7 8 4 2 stEx .start .start)
        [0, 1, 0, 1, 0, 1, 0, 1]).threads.map Thread.pc =
      [.doneOk, .doneOk] ∧
     (findBookById (run (twoThreadCfg 1 7 8 4 2 stEx .start .start)
        [0, 1, 0, 1, 0, 1, 0, 1]).store.books 1).map Book.totalRatingsCount =
      some 1) := by
  constructor
  · intro bid u0 u1 s0 s1 st hne h10 h50 h11 h51 hbk hc0 hc1 sched
    have hinv0 : InvD bid u0 u1 st .start .start := by
      refine ⟨hbk, ?_, ?_, ?_, ?_⟩
      · rw [hc0]; rfl
      · rw [hc1]; rfl
      · intro e he; cases he
      · intro e he; cases he
    obtain ⟨store2, p0, p1, hrun, hinv⟩ :=
      invD_run bid u0 u1 s0 s1 hne h10 h50 h11 h51 sched st .start .start hinv0
    exact ⟨store2, p0, p1, hrun,
      fun hd => done_of_no_err hd hinv.2.2.2.1,
      fun hd => done_of_no_err hd hinv.2.2.2.2⟩
  · exact ⟨by decide, by decide⟩

/-- Witness for the amended C8 at concrete inputs and the lockstep schedule. -/
theorem lost_update_amended_witness :
    ∃ store2 p0 p1,
      run (twoThreadCfg 1 7 8 (4 : ℚ) 2 stEx .start .start)
        [0, 1, 0, 1, 0, 1, 0, 1] =
        twoThreadCfg 1 7 8 4 2 store2 p0 p1 ∧
      (isDoneB p0 = true → p0 = .doneOk) ∧
      (isDoneB p1 = true → p1 = .doneOk) :=
  lost_update_amended.1 1 7 8 4 2 stEx (by decide) (by norm_num) (by norm_num)
    (by norm_num) (by norm_num) rfl rfl rfl [0, 1, 0, 1, 0, 1, 0, 1]

end DunderMifflin
